import Mathlib

/-!
Verification of the Poco Data core (Session.h) against its documented
contracts: the Statement chunked-extraction protocol, the binding
validation rules, the transaction state machine, the feature/property
pass-through, and the shared-ownership Session handle.  The header under
`src/Data/include/Poco/Data/Session.h` carries the contracts in its
documentation; the bodies of SessionImpl, Statement and the bindings are
not part of this slice, so those operations are modelled from the spec
and marked as such in their doc comments.
-/

namespace PocoData

/-- Error kinds of the data layer, one constructor per failure family of
the documented taxonomy (ConnectorNotFound, Connection, SessionClosed,
TransactionState, UnsupportedCapability alias NotSupportedException,
BindingMismatch, BindingException, TooManyRows). -/
inductive DataError
  | connectorNotFound
  | connectionError
  | sessionClosed
  | transactionState
  | unsupportedCapability
  | bindingMismatch
  | bindingException
  | tooManyRows
deriving DecidableEq

/-- Modelled from the spec: the mutable chunked-extraction state of a
Statement (Session.h lines 117-136; Statement bodies are outside this
slice).  It holds the Backend result set in cursor order, the limit
clauses added so far (only the last one is effective, an empty list
means unbounded), the server-side cursor position, the Done flag, and
the ordered-sequence Into target into which fetched rows accumulate. -/
structure ChunkStmt (ρ : Type) where
  backendRows : List ρ
  limits : List Nat
  cursor : Nat
  done : Bool
  target : List ρ
deriving DecidableEq

variable {ρ : Type}

/-- Several limit clauses may be attached, but only the last one added is
effective (Session.h lines 135-136). -/
def effLimit (s : ChunkStmt ρ) : Option Nat := s.limits.getLast?

/-- Rows the Backend cursor yields for one execute call starting at
position cur: everything remaining when unbounded, at most the effective
limit otherwise. -/
def chunkOf (rows : List ρ) (cur : Nat) : Option Nat → List ρ
  | none => rows.drop cur
  | some l => (rows.drop cur).take l

/-- Cursor position an execute call starts from: a Done Statement is
reset and runs again from scratch (Session.h lines 132-133). -/
def startCur (s : ChunkStmt ρ) : Nat := if s.done then 0 else s.cursor

/-- The batch of rows one execute call fetches. -/
def fetchedRows (s : ChunkStmt ρ) : List ρ :=
  chunkOf s.backendRows (startCur s) (effLimit s)

/-- Done flag after one execute call: set when fewer rows than the
effective limit were fetched, or when the backend reports exhaustion of
the result set. -/
def doneAfter (s : ChunkStmt ρ) : Bool :=
  (match effLimit s with
   | none => true
   | some l => decide ((fetchedRows s).length < l)) ||
  decide (s.backendRows.length ≤ startCur s + (fetchedRows s).length)

/-- Modelled from the spec: one execute() call of the chunked-extraction
protocol.  The Into target accumulates the fetched batch and is never
cleared between calls (Session.h lines 127-133). -/
def execute (s : ChunkStmt ρ) : ChunkStmt ρ :=
  { s with
    cursor := startCur s + (fetchedRows s).length
    done := doneAfter s
    target := s.target ++ fetchedRows s }

/-- Number of execute() calls needed to reach Done when r rows remain in
the Backend result set and the effective limit is L: the last chunk has
r mod L rows (or L when L divides r), every earlier chunk has L. -/
def numCalls (r L : Nat) : Nat := max 1 ((r + L - 1) / L)

/-- Direction of a Binding Directive: bind as input or as output target. -/
inductive Direction
  | use
  | into
deriving DecidableEq

/-- Modelled from the spec: a Binding Directive is a value collection
tagged with a direction, an optional placeholder reference, and the slot
count its TypeBinding consumes (scalar = 1, custom aggregate types may
consume more). -/
structure Directive (σ : Type) where
  dir : Direction
  values : List σ
  placeholder : Option String
  slotCount : Nat
deriving DecidableEq

/-- Modelled from the spec: a Statement about to execute — immutable SQL
text, the placeholder-wildcard count of the parsed text, and the ordered
directive list. -/
structure BoundStmt (σ : Type) where
  sql : String
  wildcards : Nat
  directives : List (Directive σ)
deriving DecidableEq

/-- Whether a directive is an input (Use) directive. -/
def isUse {σ : Type} (d : Directive σ) : Bool :=
  match d.dir with
  | Direction.use => true
  | Direction.into => false

/-- The Use directives of a statement, in addition order. -/
def useDirectives {σ : Type} (s : BoundStmt σ) : List (Directive σ) :=
  s.directives.filter isUse

/-- The element counts of the bound Use collections. -/
def useSizes {σ : Type} (s : BoundStmt σ) : List Nat :=
  (useDirectives s).map (fun d => d.values.length)

/-- All numbers in the list are equal (vacuously true of the empty list). -/
def sizesAllEqual : List Nat → Bool
  | [] => true
  | n :: rest => rest.all (fun m => m = n)

/-- Total number of placeholder slots the directives consume. -/
def slotSum {σ : Type} (s : BoundStmt σ) : Nat :=
  (s.directives.map (fun d => d.slotCount)).sum

/-- Some Use directive binds an empty collection. -/
def hasEmptyUse {σ : Type} (s : BoundStmt σ) : Bool :=
  (useDirectives s).any (fun d => d.values.isEmpty)

/-- Modelled from the spec: first-call validation of a Statement's
directives.  An empty bound collection is always rejected with
BindingException (Session.h line 110); unequal Use collection sizes and
a slot-count/wildcard mismatch are rejected with BindingMismatch
(Session.h lines 145-148). -/
def validate {σ : Type} (s : BoundStmt σ) : Option DataError :=
  if hasEmptyUse s then some DataError.bindingException
  else if sizesAllEqual (useSizes s) then
    (if slotSum s = s.wildcards then none else some DataError.bindingMismatch)
  else some DataError.bindingMismatch

/-- A call made against the Backend contract: prepare, bind a parameter
slot, or execute-and-fetch. -/
inductive BackendCall
  | prepare (sql : String)
  | bindParam (slot : Nat)
  | exec
deriving DecidableEq

/-- Bind calls for the Use directives in addition order, each skipping
the slots consumed by the preceding directives. -/
def bindCalls {σ : Type} : List (Directive σ) → Nat → List BackendCall
  | [], _ => []
  | d :: rest, offset =>
    (if isUse d then [BackendCall.bindParam offset] else []) ++
      bindCalls rest (offset + d.slotCount)

/-- The Backend call sequence of a successful execute: prepare the SQL
once, bind the Use directives, then execute and fetch. -/
def backendCallsOf {σ : Type} (s : BoundStmt σ) : List BackendCall :=
  BackendCall.prepare s.sql :: (bindCalls s.directives 0 ++ [BackendCall.exec])

/-- Modelled from the spec: one execute() call of a bound Statement
against a Backend bk, returning the outcome together with the list of
Backend calls actually made.  Validation failures happen before any
Backend call. -/
def executeBound {σ : Type} (bk : List BackendCall → Except DataError Unit)
    (s : BoundStmt σ) : Except DataError Unit × List BackendCall :=
  match validate s with
  | some e => (Except.error e, [])
  | none => (bk (backendCallsOf s), backendCallsOf s)

/-- Observable session-impl state: connection flag and whether a
transaction is in progress (Idle = false, InTransaction = true). -/
structure SessState where
  connected : Bool
  inTx : Bool
deriving DecidableEq

namespace Session

/-- Modelled from the spec: Session::begin delegates to the Backend;
beginning a transaction while one is in progress is a
TransactionStateError, never a silent no-op. -/
def begin (s : SessState) : Except DataError SessState :=
  if s.inTx then Except.error DataError.transactionState
  else Except.ok { s with inTx := true }

/-- Modelled from the spec: Session::commit ends the transaction;
committing with no active transaction is a TransactionStateError. -/
def commit (s : SessState) : Except DataError SessState :=
  if s.inTx then Except.ok { s with inTx := false }
  else Except.error DataError.transactionState

/-- Modelled from the spec: Session::rollback ends the transaction;
rolling back with no active transaction is a TransactionStateError. -/
def rollback (s : SessState) : Except DataError SessState :=
  if s.inTx then Except.ok { s with inTx := false }
  else Except.error DataError.transactionState

/-- Session::isConnected, a query returning the flag and the (unchanged)
state. -/
def isConnected (s : SessState) : Bool × SessState := (s.connected, s)

/-- Session::isTransaction, a query returning the flag and the
(unchanged) state. -/
def isTransaction (s : SessState) : Bool × SessState := (s.inTx, s)

end Session

/-- Modelled from the spec: the feature/property registry owned by the
underlying SessionImpl — a partial map from names to boolean features
and a partial map from names to typed property values. -/
structure Backend (α : Type) where
  features : String → Option Bool
  properties : String → Option α

/-- Session::getFeature forwards to the impl; an unrecognized name fails
with the UnsupportedCapability kind (NotSupportedException, Session.h
lines 220-227). -/
def getFeature {α : Type} (b : Backend α) (name : String) : Except DataError Bool :=
  match b.features name with
  | some v => Except.ok v
  | none => Except.error DataError.unsupportedCapability

/-- Session::setFeature forwards to the impl; an unrecognized name fails
with the UnsupportedCapability kind (Session.h lines 211-218). -/
def setFeature {α : Type} (b : Backend α) (name : String) (state : Bool) :
    Except DataError (Backend α) :=
  match b.features name with
  | some _ =>
    Except.ok { b with features := fun n => if n = name then some state else b.features n }
  | none => Except.error DataError.unsupportedCapability

/-- Session::getProperty forwards to the impl; an unrecognized name fails
with the UnsupportedCapability kind (Session.h lines 238-245). -/
def getProperty {α : Type} (b : Backend α) (name : String) : Except DataError α :=
  match b.properties name with
  | some v => Except.ok v
  | none => Except.error DataError.unsupportedCapability

/-- Session::setProperty forwards to the impl; an unrecognized name fails
with the UnsupportedCapability kind (Session.h lines 229-236). -/
def setProperty {α : Type} (b : Backend α) (name : String) (value : α) :
    Except DataError (Backend α) :=
  match b.properties name with
  | some _ =>
    Except.ok { b with properties := fun n => if n = name then some value else b.properties n }
  | none => Except.error DataError.unsupportedCapability

/-- The reference-counted Backend connection handle a family of Session
copies shares (`_ptrImpl`): the shared connection flag and the number of
owners. -/
structure SharedHandle where
  connected : Bool
  refCount : Nat
deriving DecidableEq

/-- Copying a Session shares the same handle and increments the
reference count (Session.h lines 171-175, 250-254). -/
def copySession (w : SharedHandle) : SharedHandle :=
  { w with refCount := w.refCount + 1 }

/-- Session::close forwards to the shared impl (Session.h lines
285-288): the one shared connection is closed, whatever the reference
count. -/
def closeSession (w : SharedHandle) : SharedHandle :=
  { w with connected := false }

/-- Modelled from the spec: destroying one owner decrements the
reference count; only the destruction of the last owner releases the
Backend connection (represented by none). -/
def destroySession (w : SharedHandle) : Option SharedHandle :=
  if w.refCount ≤ 1 then none else some { w with refCount := w.refCount - 1 }

/-- A Session copy can operate iff the shared connection is open. -/
def operable (w : SharedHandle) : Bool := w.connected

theorem numCalls_of_le (r L : Nat) (hL : 0 < L) (h : r ≤ L) : numCalls r L = 1 := by
  unfold numCalls
  rcases Nat.eq_zero_or_pos r with h0 | h1
  · subst h0
    rw [Nat.zero_add, Nat.div_eq_of_lt (by omega)]
    simp
  · have he : r + L - 1 = (r - 1) + L := by omega
    rw [he, Nat.add_div_right _ hL, Nat.div_eq_of_lt (by omega)]
    simp

theorem numCalls_of_gt (r L : Nat) (hL : 0 < L) (h : L < r) :
    numCalls r L = 1 + numCalls (r - L) L := by
  unfold numCalls
  have h1 : r + L - 1 = (r - 1) + L := by omega
  have h2 : r - L + L - 1 = (r - L - 1) + L := by omega
  rw [h1, h2, Nat.add_div_right _ hL, Nat.add_div_right _ hL,
    Nat.div_eq_sub_div hL (by omega : L ≤ r - 1)]
  have h3 : r - 1 - L = r - L - 1 := by omega
  rw [h3]
  generalize (r - L - 1) / L = x
  omega

theorem numCalls_pos (r L : Nat) : 1 ≤ numCalls r L := le_max_left 1 _

theorem execute_mk (rows : List ρ) (L c : Nat) (t : List ρ) :
    execute (ChunkStmt.mk rows [L] c false t) =
      ChunkStmt.mk rows [L] (c + ((rows.drop c).take L).length)
        ((decide (((rows.drop c).take L).length < L)) ||
          decide (rows.length ≤ c + ((rows.drop c).take L).length))
        (t ++ (rows.drop c).take L) := rfl

/-- Chunk-by-chunk run of the extraction protocol from an arbitrary
cursor position: after the calls counted by numCalls the cursor has
reached the end, the Done flag is set, and the remaining rows were
appended to the target in Backend cursor order; every strictly earlier
call left the Statement resumable with exactly full chunks fetched. -/
theorem run_extraction (rows : List ρ) (L : Nat) (hL : 0 < L) :
    ∀ r c t, c + r = rows.length →
      execute^[numCalls r L] (ChunkStmt.mk rows [L] c false t) =
        ChunkStmt.mk rows [L] rows.length true (t ++ rows.drop c) ∧
      ∀ j, j < numCalls r L →
        execute^[j] (ChunkStmt.mk rows [L] c false t) =
          ChunkStmt.mk rows [L] (c + j * L) false (t ++ (rows.drop c).take (j * L)) := by
  intro r
  induction r using Nat.strong_induction_on with
  | _ r ih =>
    intro c t hct
    have hdlen : (rows.drop c).length = rows.length - c := List.length_drop c rows
    by_cases hr : r ≤ L
    · have htake : (rows.drop c).take L = rows.drop c :=
        List.take_of_length_le (by rw [hdlen]; omega)
      constructor
      · rw [numCalls_of_le r L hL hr, Function.iterate_one, execute_mk, htake, hdlen]
        have hc : c + (rows.length - c) = rows.length := by omega
        rw [hc]
        simp
      · intro j hj
        rw [numCalls_of_le r L hL hr] at hj
        have hj0 : j = 0 := by omega
        subst hj0
        simp
    · have hlen2 : ((rows.drop c).take L).length = L := by
        rw [List.length_take, hdlen]
        omega
      have hstep : execute (ChunkStmt.mk rows [L] c false t) =
          ChunkStmt.mk rows [L] (c + L) false (t ++ (rows.drop c).take L) := by
        rw [execute_mk, hlen2]
        have hx : ¬ (rows.length ≤ c + L) := by omega
        simp [hx]
      have hdd : (rows.drop c).take L ++ rows.drop (c + L) = rows.drop c := by
        rw [show rows.drop (c + L) = (rows.drop c).drop L from (List.drop_drop L c rows).symm]
        exact List.take_append_drop L (rows.drop c)
      have hk := numCalls_of_gt r L hL (by omega)
      have hih := ih (r - L) (by omega) (c + L) (t ++ (rows.drop c).take L) (by omega)
      constructor
      · rw [hk, Nat.add_comm 1 _, Function.iterate_succ_apply, hstep, hih.1,
          List.append_assoc, hdd]
      · intro j hj
        rw [hk] at hj
        match j with
        | 0 => simp
        | j0 + 1 =>
          rw [Function.iterate_succ_apply, hstep, hih.2 j0 (by omega)]
          have hcur : (c + L) + j0 * L = c + (j0 + 1) * L := by
            rw [Nat.succ_mul]
            omega
          have htgt : (rows.drop c).take ((j0 + 1) * L) =
              (rows.drop c).take L ++ (rows.drop (c + L)).take (j0 * L) := by
            rw [show (j0 + 1) * L = L + j0 * L by rw [Nat.succ_mul]; omega,
              List.take_add,
              show rows.drop (c + L) = (rows.drop c).drop L from (List.drop_drop L c rows).symm]
          rw [hcur, htgt, List.append_assoc]

theorem execute_done_reset (s : ChunkStmt ρ) (hd : s.done = true) :
    execute s = execute (ChunkStmt.mk s.backendRows s.limits 0 false s.target) := by
  simp [execute, startCur, fetchedRows, doneAfter, effLimit, chunkOf, hd]

/-- C1: with a row Limit L and a Backend result set of size N, executing
repeatedly until Done accumulates exactly the N rows into the ordered
Into target, in Backend cursor order; Done becomes true exactly on the
call that returns the final batch (every strictly earlier call fetched a
full chunk of L rows and left the Statement resumable). -/
theorem chunked_extraction_complete (rows : List ρ) (L : Nat) (hL : 0 < L) :
    (execute^[numCalls rows.length L] (ChunkStmt.mk rows [L] 0 false [])).target = rows ∧
    (execute^[numCalls rows.length L] (ChunkStmt.mk rows [L] 0 false [])).done = true ∧
    ∀ j, j < numCalls rows.length L →
      (execute^[j] (ChunkStmt.mk rows [L] 0 false [])).done = false ∧
      (execute^[j] (ChunkStmt.mk rows [L] 0 false [])).target = rows.take (j * L) := by
  have h := run_extraction rows L hL rows.length 0 [] (by omega)
  refine ⟨?_, ?_, ?_⟩
  · rw [h.1]
    simp
  · rw [h.1]
  · intro j hj
    rw [h.2 j hj]
    simp

theorem chunked_extraction_complete_witness :
    0 < 2 ∧
    ((execute^[numCalls ([10, 20, 30] : List Nat).length 2]
        (ChunkStmt.mk ([10, 20, 30] : List Nat) [2] 0 false [])).target = [10, 20, 30] ∧
      (execute^[numCalls ([10, 20, 30] : List Nat).length 2]
        (ChunkStmt.mk ([10, 20, 30] : List Nat) [2] 0 false [])).done = true ∧
      ∀ j, j < numCalls ([10, 20, 30] : List Nat).length 2 →
        (execute^[j] (ChunkStmt.mk ([10, 20, 30] : List Nat) [2] 0 false [])).done = false ∧
        (execute^[j] (ChunkStmt.mk ([10, 20, 30] : List Nat) [2] 0 false [])).target =
          ([10, 20, 30] : List Nat).take (j * 2)) :=
  ⟨by decide, chunked_extraction_complete [10, 20, 30] 2 (by decide)⟩

/-- C2: executing a Done Statement again starts a fresh run from a reset
Backend cursor and appends the full result set once more to the existing
Into target contents; and no execute call ever clears or replaces the
target — every call appends its fetched batch to it. -/
theorem reexecute_appends_fresh_run (rows : List ρ) (L c : Nat) (t : List ρ) (hL : 0 < L) :
    (execute^[numCalls rows.length L] (ChunkStmt.mk rows [L] c true t)).target = t ++ rows ∧
    (execute^[numCalls rows.length L] (ChunkStmt.mk rows [L] c true t)).done = true ∧
    ∀ u : ChunkStmt ρ, (execute u).target = u.target ++ fetchedRows u := by
  have h := run_extraction rows L hL rows.length 0 t (by omega)
  have hk1 : numCalls rows.length L = (numCalls rows.length L - 1) + 1 := by
    have := numCalls_pos rows.length L
    omega
  have hreset := execute_done_reset (ChunkStmt.mk rows [L] c true t) rfl
  have hEq : execute^[numCalls rows.length L] (ChunkStmt.mk rows [L] c true t) =
      execute^[numCalls rows.length L] (ChunkStmt.mk rows [L] 0 false t) := by
    rw [hk1, Function.iterate_succ_apply, Function.iterate_succ_apply, hreset]
  refine ⟨?_, ?_, fun u => rfl⟩
  · rw [hEq, h.1]
    simp
  · rw [hEq, h.1]

theorem reexecute_appends_fresh_run_witness :
    0 < 1 ∧
    ((execute^[numCalls ([7, 8] : List Nat).length 1]
        (ChunkStmt.mk ([7, 8] : List Nat) [1] 2 true [7, 8])).target = [7, 8] ++ [7, 8] ∧
      (execute^[numCalls ([7, 8] : List Nat).length 1]
        (ChunkStmt.mk ([7, 8] : List Nat) [1] 2 true [7, 8])).done = true ∧
      ∀ u : ChunkStmt Nat, (execute u).target = u.target ++ fetchedRows u) :=
  ⟨by decide, reexecute_appends_fresh_run [7, 8] 1 2 [7, 8] (by decide)⟩

theorem execute_congrLimits (s : ChunkStmt ρ) (ls2 : List Nat)
    (h : ls2.getLast? = s.limits.getLast?) :
    execute (ChunkStmt.mk s.backendRows ls2 s.cursor s.done s.target) =
      ChunkStmt.mk (execute s).backendRows ls2 (execute s).cursor (execute s).done
        (execute s).target := by
  simp [execute, startCur, fetchedRows, doneAfter, effLimit, chunkOf, h]

theorem execute_limits_eq (s : ChunkStmt ρ) : (execute s).limits = s.limits := rfl

theorem iterate_execute_limits (s : ChunkStmt ρ) (n : Nat) :
    (execute^[n] s).limits = s.limits := by
  induction n with
  | zero => rfl
  | succ n ihn => rw [Function.iterate_succ_apply', execute_limits_eq, ihn]

theorem iterate_execute_congrLimits (s : ChunkStmt ρ) (ls2 : List Nat)
    (h : ls2.getLast? = s.limits.getLast?) (n : Nat) :
    execute^[n] (ChunkStmt.mk s.backendRows ls2 s.cursor s.done s.target) =
      ChunkStmt.mk (execute^[n] s).backendRows ls2 (execute^[n] s).cursor
        (execute^[n] s).done (execute^[n] s).target := by
  induction n with
  | zero => rfl
  | succ n ihn =>
    rw [Function.iterate_succ_apply', Function.iterate_succ_apply', ihn]
    exact execute_congrLimits (execute^[n] s) ls2 (by rw [h, iterate_execute_limits])

/-- C10: when several limit clauses are attached, only the last one
added is effective — the effective chunk size equals the maxRows of the
most recently added Limit, and after any number of execute calls the
observable Statement state (target, cursor, Done) is the same as if only
that last Limit had been attached. -/
theorem last_limit_effective (rows : List ρ) (ls : List Nat) (L c : Nat) (d : Bool)
    (t : List ρ) (n : Nat) :
    effLimit (ChunkStmt.mk rows (ls ++ [L]) c d t) = some L ∧
    (execute^[n] (ChunkStmt.mk rows (ls ++ [L]) c d t)).target =
      (execute^[n] (ChunkStmt.mk rows [L] c d t)).target ∧
    (execute^[n] (ChunkStmt.mk rows (ls ++ [L]) c d t)).cursor =
      (execute^[n] (ChunkStmt.mk rows [L] c d t)).cursor ∧
    (execute^[n] (ChunkStmt.mk rows (ls ++ [L]) c d t)).done =
      (execute^[n] (ChunkStmt.mk rows [L] c d t)).done := by
  have h := iterate_execute_congrLimits (ChunkStmt.mk rows [L] c d t) (ls ++ [L])
    (by rw [List.getLast?_concat]; rfl) n
  refine ⟨by simp [effLimit, List.getLast?_concat], ?_, ?_, ?_⟩ <;> rw [h]

theorem hasEmptyUse_eq_true {σ : Type} (s : BoundStmt σ) (d : Directive σ)
    (hd : d ∈ s.directives) (hu : isUse d = true) (he : d.values = []) :
    hasEmptyUse s = true := by
  unfold hasEmptyUse useDirectives
  rw [List.any_eq_true]
  exact ⟨d, List.mem_filter.mpr ⟨hd, hu⟩, by simp [he]⟩

theorem hasEmptyUse_eq_false {σ : Type} (s : BoundStmt σ)
    (h : ∀ d ∈ s.directives, isUse d = true → d.values ≠ []) :
    hasEmptyUse s = false := by
  unfold hasEmptyUse useDirectives
  rw [List.any_eq_false]
  intro d hdmem
  obtain ⟨hmem, hu⟩ := List.mem_filter.mp hdmem
  simp [List.isEmpty_iff]
  exact h d hmem hu

theorem sizesAllEqual_all (ns : List Nat) (h : sizesAllEqual ns = true) :
    ∀ a ∈ ns, ∀ b ∈ ns, a = b := by
  match ns with
  | [] =>
    intro a ha
    exact absurd ha (List.not_mem_nil a)
  | n :: rest =>
    intro a ha b hb
    unfold sizesAllEqual at h
    rw [List.all_eq_true] at h
    have hval : ∀ x ∈ rest, x = n := by
      intro x hx
      simpa using h x hx
    have ha2 : a = n := by
      rcases List.mem_cons.mp ha with h0 | h0
      · exact h0
      · exact hval a h0
    have hb2 : b = n := by
      rcases List.mem_cons.mp hb with h0 | h0
      · exact h0
      · exact hval b h0
    rw [ha2, hb2]

/-- C4 as stated is false on the modelled validation: when one of the
unequal Use collections is empty, the first execute fails with
BindingException (the empty-collection rule always wins), not with
BindingMismatch — here sizes 0 and 4. -/
theorem use_sizes_mismatch_counterexample :
    (∃ d1 ∈ (BoundStmt.mk "INSERT INTO Person (LastName, Age) VALUES(:ln, :age)" 2
        [Directive.mk Direction.use ([] : List Nat) (some ":ln") 1,
         Directive.mk Direction.use [30, 31, 32, 33] (some ":age") 1]).directives,
      ∃ d2 ∈ (BoundStmt.mk "INSERT INTO Person (LastName, Age) VALUES(:ln, :age)" 2
        [Directive.mk Direction.use ([] : List Nat) (some ":ln") 1,
         Directive.mk Direction.use [30, 31, 32, 33] (some ":age") 1]).directives,
      isUse d1 = true ∧ isUse d2 = true ∧ d1.values.length ≠ d2.values.length) ∧
    executeBound (fun _ => Except.ok ())
      (BoundStmt.mk "INSERT INTO Person (LastName, Age) VALUES(:ln, :age)" 2
        [Directive.mk Direction.use ([] : List Nat) (some ":ln") 1,
         Directive.mk Direction.use [30, 31, 32, 33] (some ":age") 1]) =
      (Except.error DataError.bindingException, []) ∧
    DataError.bindingException ≠ DataError.bindingMismatch := by
  refine ⟨?_, rfl, by decide⟩
  exact ⟨Directive.mk Direction.use ([] : List Nat) (some ":ln") 1, by simp,
    Directive.mk Direction.use [30, 31, 32, 33] (some ":age") 1, by simp, rfl, rfl, by decide⟩

/-- C4 amended: for a Statement whose Use directives all bind nonempty
collections, two of which have unequal element counts, the first execute
fails with BindingMismatch before any Backend call is made. -/
theorem unequal_use_sizes_mismatch {σ : Type} (bk : List BackendCall → Except DataError Unit)
    (s : BoundStmt σ) (d1 d2 : Directive σ)
    (hne : ∀ d ∈ s.directives, isUse d = true → d.values ≠ [])
    (h1 : d1 ∈ s.directives) (h2 : d2 ∈ s.directives)
    (hu1 : isUse d1 = true) (hu2 : isUse d2 = true)
    (hlen : d1.values.length ≠ d2.values.length) :
    executeBound bk s = (Except.error DataError.bindingMismatch, []) := by
  have hEmpty : hasEmptyUse s = false := hasEmptyUse_eq_false s hne
  have hSz : sizesAllEqual (useSizes s) = false := by
    rcases Bool.eq_false_or_eq_true (sizesAllEqual (useSizes s)) with hx | hx
    · have hall := sizesAllEqual_all _ hx
      have hm1 : d1.values.length ∈ useSizes s :=
        List.mem_map_of_mem _ (List.mem_filter.mpr ⟨h1, hu1⟩)
      have hm2 : d2.values.length ∈ useSizes s :=
        List.mem_map_of_mem _ (List.mem_filter.mpr ⟨h2, hu2⟩)
      exact absurd (hall _ hm1 _ hm2) hlen
    · exact hx
  simp [executeBound, validate, hEmpty, hSz]

theorem unequal_use_sizes_mismatch_witness :
    executeBound (fun _ => Except.ok ())
      (BoundStmt.mk "INSERT INTO Person (LastName, Age) VALUES(:ln, :age)" 2
        [Directive.mk Direction.use ([11, 12, 13] : List Nat) (some ":ln") 1,
         Directive.mk Direction.use [30, 31, 32, 33] (some ":age") 1]) =
      (Except.error DataError.bindingMismatch, []) :=
  unequal_use_sizes_mismatch _ _
    (Directive.mk Direction.use ([11, 12, 13] : List Nat) (some ":ln") 1)
    (Directive.mk Direction.use ([30, 31, 32, 33] : List Nat) (some ":age") 1)
    (by decide) (by simp) (by simp) rfl rfl (by decide)

/-- C5: a Statement binding an empty collection as a Use directive fails
on execute with BindingException, whatever the Backend and whatever the
other directives, and no Backend call is made. -/
theorem empty_use_binding_exception {σ : Type} (bk : List BackendCall → Except DataError Unit)
    (s : BoundStmt σ) (d : Directive σ) (hd : d ∈ s.directives)
    (hu : isUse d = true) (he : d.values = []) :
    executeBound bk s = (Except.error DataError.bindingException, []) := by
  have h := hasEmptyUse_eq_true s d hd hu he
  simp [executeBound, validate, h]

theorem empty_use_binding_exception_witness :
    executeBound (fun _ => Except.ok ())
      (BoundStmt.mk "INSERT INTO Dummy VALUES(:data)" 1
        [Directive.mk Direction.use ([] : List Nat) (some ":data") 1]) =
      (Except.error DataError.bindingException, []) :=
  empty_use_binding_exception _ _
    (Directive.mk Direction.use ([] : List Nat) (some ":data") 1)
    (by simp) rfl rfl

/-- C6: the slot counts consumed by the directives must sum to the
wildcard count of the parsed SQL text; a Statement violating this fails
on execute (with an error, making no Backend call) rather than
executing. -/
theorem slot_count_mismatch_fails {σ : Type} (bk : List BackendCall → Except DataError Unit)
    (s : BoundStmt σ) (h : slotSum s ≠ s.wildcards) :
    ∃ e, executeBound bk s = (Except.error e, []) := by
  rcases Bool.eq_false_or_eq_true (hasEmptyUse s) with h1 | h1
  · exact ⟨DataError.bindingException, by simp [executeBound, validate, h1]⟩
  · rcases Bool.eq_false_or_eq_true (sizesAllEqual (useSizes s)) with h2 | h2
    · exact ⟨DataError.bindingMismatch, by simp [executeBound, validate, h1, h2, h]⟩
    · exact ⟨DataError.bindingMismatch, by simp [executeBound, validate, h1, h2]⟩

theorem slot_count_mismatch_fails_witness :
    ∃ e, executeBound (fun _ => Except.ok ())
      (BoundStmt.mk "INSERT INTO Person (LastName, Age) VALUES(:ln, :age)" 2
        [Directive.mk Direction.use ([41] : List Nat) (some ":ln") 1]) =
      (Except.error e, []) :=
  slot_count_mismatch_fails _ _ (by decide)

/-- C3: transaction control is a two-state machine over Idle and
InTransaction — begin moves Idle to InTransaction, commit and rollback
move InTransaction to Idle, and every other attempted transition fails
with the TransactionState error rather than being a silent no-op. -/
theorem transaction_state_machine : ∀ c : Bool,
    Session.begin (SessState.mk c false) = Except.ok (SessState.mk c true) ∧
    Session.begin (SessState.mk c true) = Except.error DataError.transactionState ∧
    Session.commit (SessState.mk c true) = Except.ok (SessState.mk c false) ∧
    Session.commit (SessState.mk c false) = Except.error DataError.transactionState ∧
    Session.rollback (SessState.mk c true) = Except.ok (SessState.mk c false) ∧
    Session.rollback (SessState.mk c false) = Except.error DataError.transactionState := by
  intro c
  exact ⟨rfl, rfl, rfl, rfl, rfl, rfl⟩

/-- C9: isConnected and isTransaction are pure queries — each returns
the corresponding flag and leaves the session state unchanged, so
calling them in any order and any number of times yields the same
results and the same state. -/
theorem connection_queries_pure (s : SessState) :
    (Session.isConnected s).2 = s ∧
    (Session.isTransaction s).2 = s ∧
    (Session.isConnected s).1 = s.connected ∧
    (Session.isTransaction s).1 = s.inTx ∧
    (Session.isConnected ((Session.isTransaction s).2)).1 = (Session.isConnected s).1 ∧
    (Session.isTransaction ((Session.isConnected s).2)).1 = (Session.isTransaction s).1 :=
  ⟨rfl, rfl, rfl, rfl, rfl, rfl⟩

/-- C7: for a name neither registry of the Backend recognizes, each of
getFeature, setFeature, getProperty and setProperty fails with the one
stable UnsupportedCapability error kind — never succeeding, returning a
default, or failing differently — whatever the Backend. -/
theorem unsupported_capability_stable {α : Type} (b : Backend α) (name : String)
    (hf : b.features name = none) (hp : b.properties name = none) :
    getFeature b name = Except.error DataError.unsupportedCapability ∧
    (∀ st, setFeature b name st = Except.error DataError.unsupportedCapability) ∧
    getProperty b name = Except.error DataError.unsupportedCapability ∧
    ∀ v, setProperty b name v = Except.error DataError.unsupportedCapability := by
  refine ⟨?_, ?_, ?_, ?_⟩ <;>
    simp [getFeature, setFeature, getProperty, setProperty, hf, hp]

theorem unsupported_capability_stable_witness :
    getFeature (Backend.mk (fun _ => none) (fun _ => (none : Option Nat))) "nonexistent" =
      Except.error DataError.unsupportedCapability ∧
    (∀ st, setFeature (Backend.mk (fun _ => none) (fun _ => (none : Option Nat)))
      "nonexistent" st = Except.error DataError.unsupportedCapability) ∧
    getProperty (Backend.mk (fun _ => none) (fun _ => (none : Option Nat))) "nonexistent" =
      Except.error DataError.unsupportedCapability ∧
    ∀ v, setProperty (Backend.mk (fun _ => none) (fun _ => (none : Option Nat)))
      "nonexistent" v = Except.error DataError.unsupportedCapability :=
  unsupported_capability_stable (Backend.mk (fun _ => none) (fun _ => none)) "nonexistent" rfl rfl

/-- C8 as stated is false: with two copies sharing the handle, closing
one copy closes the one shared connection (Session::close forwards to
the shared impl), so the other copy is no longer operable even though it
was not the last owner. -/
theorem close_shared_counterexample :
    operable (SharedHandle.mk true 2) = true ∧
    1 < (closeSession (SharedHandle.mk true 2)).refCount ∧
    operable (closeSession (SharedHandle.mk true 2)) = false := by
  decide

/-- C8 amended: copying a Session shares the reference-counted handle
(the count increments and the connection is untouched); destroying a
non-last owner leaves the shared connection and the other copies
unaffected; destruction of the last owner releases the connection; but
close() on any copy closes the one shared connection, affecting every
copy. -/
theorem shared_handle_refcount (w : SharedHandle) :
    (copySession w).refCount = w.refCount + 1 ∧
    (copySession w).connected = w.connected ∧
    (2 ≤ w.refCount → destroySession w = some (SharedHandle.mk w.connected (w.refCount - 1))) ∧
    (w.refCount ≤ 1 → destroySession w = none) ∧
    (closeSession w).connected = false := by
  refine ⟨rfl, rfl, ?_, ?_, rfl⟩
  · intro h
    simp only [destroySession]
    rw [if_neg (by omega)]
  · intro h
    simp only [destroySession]
    rw [if_pos (by omega)]

theorem shared_handle_refcount_witness :
    (copySession (SharedHandle.mk true 2)).refCount = 3 ∧
    (copySession (SharedHandle.mk true 2)).connected = true ∧
    (2 ≤ 2 → destroySession (SharedHandle.mk true 2) = some (SharedHandle.mk true 1)) ∧
    ((2 : Nat) ≤ 1 → destroySession (SharedHandle.mk true 2) = none) ∧
    (closeSession (SharedHandle.mk true 2)).connected = false :=
  shared_handle_refcount (SharedHandle.mk true 2)

end PocoData
